import Mathlib

/-!
Shallow embedding of the toy banking ledger from `bank_account.py` and
`homework.py`.

Modelling conventions:
* Python `float` amounts are modelled as exact rationals `ℚ`; the spec
  excludes currency precision and rounding from scope.
* Python exceptions become `Except`/error values.  Each distinct raise
  site keeps its own error constructor so that the error taxonomy of the
  spec (`InvalidArgument`, `InsufficientFunds`, `MinimumBalanceViolation`,
  `NotFound`, `DuplicateAccount`) is distinguishable.
* A `Bank` method that mutates the underlying object and then raises is
  modelled by returning the (possibly partially mutated) state together
  with an optional error, so that atomicity is a theorem and not an
  artifact of the encoding.
* The Python subclass `SavingsAccount` is modelled as a variant tag on a
  single `Account` structure; dynamic dispatch of `withdraw` matches on
  the tag.
-/

inductive AccountType
  | checking
  | savings
  | business
  | credit
  deriving DecidableEq

/-- Errors raised by account-level operations (`ValueError`s in the source,
distinguished by their message). -/
inductive AccErr
  | invalidArgument
  | insufficientFunds
  | minBalanceViolation
  deriving DecidableEq

/-- The subclass tag: a plain `BankAccount` or a `SavingsAccount` carrying
its extra fields `interest_rate` and `min_balance`. -/
inductive AcctVariant
  | base
  | savings (interest_rate min_balance : ℚ)
  deriving DecidableEq

structure Account where
  account_number : String
  account_holder : String
  account_type : AccountType
  balance : ℚ
  variant : AcctVariant
  deriving DecidableEq

/-- Python `not s or not s.strip()`: true iff the string is empty or
consists only of whitespace characters. -/
def blankStr (s : String) : Bool := s.data.all Char.isWhitespace

/-- `BankAccount.__init__`: requires a non-whitespace account number and
holder and a non-negative initial balance. -/
def mkBankAccount (account_number account_holder : String)
    (account_type : AccountType) (balance : ℚ) : Except AccErr Account :=
  if blankStr account_number then .error .invalidArgument
  else if blankStr account_holder then .error .invalidArgument
  else if balance < 0 then .error .invalidArgument
  else .ok ⟨account_number, account_holder, account_type, balance, .base⟩

/-- `SavingsAccount.__init__`: delegates to the base constructor with
account type SAVINGS, then stores `interest_rate` and `min_balance`
without any further validation. -/
def mkSavingsAccount (account_number account_holder : String)
    (balance interest_rate min_balance : ℚ) : Except AccErr Account :=
  (mkBankAccount account_number account_holder .savings balance).map
    fun a => { a with variant := .savings interest_rate min_balance }

/-- `BankAccount.deposit`: rejects non-positive amounts, otherwise adds. -/
def BankAccount.deposit (a : Account) (amount : ℚ) : Except AccErr Account :=
  if amount ≤ 0 then .error .invalidArgument
  else .ok { a with balance := a.balance + amount }

/-- `BankAccount.withdraw`: rejects non-positive amounts, then amounts
exceeding the balance, otherwise subtracts. -/
def BankAccount.withdraw (a : Account) (amount : ℚ) : Except AccErr Account :=
  if amount ≤ 0 then .error .invalidArgument
  else if a.balance < amount then .error .insufficientFunds
  else .ok { a with balance := a.balance - amount }

/-- Dynamic dispatch of `withdraw`: a `SavingsAccount` first checks
`balance - amount < min_balance` and only then delegates to the base
method; a plain account goes to the base method directly. -/
def Account.withdraw (a : Account) (amount : ℚ) : Except AccErr Account :=
  match a.variant with
  | .base => BankAccount.withdraw a amount
  | .savings _ min_balance =>
      if a.balance - amount < min_balance then .error .minBalanceViolation
      else BankAccount.withdraw a amount

/-- `SavingsAccount.add_interest`: deposits `balance * rate / 100` via the
inherited (guarded) `deposit`.  The method exists only on the savings
subclass; the `base` branch is unreachable in the source and is a no-op
here. -/
def SavingsAccount.add_interest (a : Account) : Except AccErr Account :=
  match a.variant with
  | .savings interest_rate _ =>
      BankAccount.deposit a (a.balance * (interest_rate / 100))
  | .base => .ok a

instance {ε α : Type} [DecidableEq ε] [DecidableEq α] :
    DecidableEq (Except ε α) := fun x y =>
  match x, y with
  | .error a, .error b =>
      if h : a = b then .isTrue (by rw [h]) else .isFalse (by simp [h])
  | .error _, .ok _ => .isFalse (by simp)
  | .ok _, .error _ => .isFalse (by simp)
  | .ok a, .ok b =>
      if h : a = b then .isTrue (by rw [h]) else .isFalse (by simp [h])

example : BankAccount.withdraw ⟨"1", "h", .checking, 10, .base⟩ 4 =
    .ok ⟨"1", "h", .checking, 6, .base⟩ := by
  norm_num [BankAccount.withdraw]

example : Account.withdraw ⟨"1", "h", .savings, 10, .savings 10 10⟩ 5 =
    .error .minBalanceViolation := by
  norm_num [Account.withdraw]

example : mkSavingsAccount "1" "h" 0 (-5) 10 =
    .ok ⟨"1", "h", .savings, 0, .savings (-5) 10⟩ := by
  simp +decide [mkSavingsAccount, mkBankAccount, blankStr, Except.map]

inductive TransactionType
  | deposit
  | withdraw
  | transfer
  deriving DecidableEq

/-- The `Transaction` dataclass of the source.  Note that in the source the
line `timestamp = datetime.now()` carries no type annotation, so it does
NOT declare a dataclass field: no per-instance timestamp is stored. -/
structure Transaction where
  transaction_type : TransactionType
  account_number : String
  amount : ℚ
  account_number_to : Option String
  deriving DecidableEq

/-- Creating a `Transaction` at wall-clock time `now`: the generated
`__init__` takes no timestamp argument and stores none, so the creation
time `now` is discarded. -/
def mkTransaction (transaction_type : TransactionType)
    (account_number : String) (amount : ℚ) (account_number_to : Option String)
    (_now : ℕ) : Transaction :=
  ⟨transaction_type, account_number, amount, account_number_to⟩

/-- Reading `t.timestamp`: the attribute lookup falls through to the class
attribute, the single `datetime.now()` value evaluated once when the
`Transaction` class body ran (`class_load_time`), shared by all
instances. -/
def Transaction.timestamp (class_load_time : ℕ) (_t : Transaction) : ℕ :=
  class_load_time

/-- Errors raised by `Bank` methods (`ValueError`s, plus the `KeyError`
that `del` raises in `remove_account` when the key is absent). -/
inductive BankErr
  | notFound
  | duplicateAccount
  | insufficientFundsPrecheck
  | keyError
  | acc (e : AccErr)
  deriving DecidableEq

structure Bank where
  name : String
  accounts : List (String × Account)
  transactions : List Transaction
  deriving DecidableEq

/-- `Bank.__init__`: stores the caller-supplied accounts mapping as is
(no validation of the keys), or an empty mapping, and an empty log. -/
def Bank.init (name : String)
    (accounts : Option (List (String × Account))) : Bank :=
  ⟨name, accounts.getD [], []⟩

/-- Dictionary lookup `accounts[n]` / membership `n in accounts`. -/
def findAcct : List (String × Account) → String → Option Account
  | [], _ => none
  | p :: rest, n => if p.1 = n then some p.2 else findAcct rest n

/-- Dictionary update `accounts[n] = a` for a key already present. -/
def updateAcct : List (String × Account) → String → Account →
    List (String × Account)
  | [], _, _ => []
  | p :: rest, n, a => (if p.1 = n then (p.1, a) else p) :: updateAcct rest n a

/-- Dictionary deletion `del accounts[n]`. -/
def removeAcct (l : List (String × Account)) (n : String) :
    List (String × Account) :=
  l.filter (fun p => p.1 != n)

/-- `Bank.add_account`: rejects a duplicate account number, otherwise
inserts under the account's own number. -/
def Bank.add_account (b : Bank) (a : Account) : Bank × Option BankErr :=
  if (findAcct b.accounts a.account_number).isSome then
    (b, some .duplicateAccount)
  else
    ({ b with accounts := b.accounts ++ [(a.account_number, a)] }, none)

/-- `Bank.remove_account`: bare `del self.__accounts[account_number]`,
which raises `KeyError` when the key is absent. -/
def Bank.remove_account (b : Bank) (n : String) : Bank × Option BankErr :=
  if (findAcct b.accounts n).isSome then
    ({ b with accounts := removeAcct b.accounts n }, none)
  else (b, some .keyError)

/-- `Bank.deposit`: existence check, delegate to the account's `deposit`
(the base method, not overridden), then append one deposit record. -/
def Bank.deposit (b : Bank) (n : String) (amount : ℚ) : Bank × Option BankErr :=
  match findAcct b.accounts n with
  | none => (b, some .notFound)
  | some a =>
    match BankAccount.deposit a amount with
    | .error e => (b, some (.acc e))
    | .ok a2 =>
        ({ b with
            accounts := updateAcct b.accounts n a2,
            transactions := b.transactions ++ [⟨.deposit, n, amount, none⟩] },
         none)

/-- `Bank.withdraw`: existence check, delegate to the account's `withdraw`
(dynamically dispatched), then append one withdraw record. -/
def Bank.withdraw (b : Bank) (n : String) (amount : ℚ) :
    Bank × Option BankErr :=
  match findAcct b.accounts n with
  | none => (b, some .notFound)
  | some a =>
    match Account.withdraw a amount with
    | .error e => (b, some (.acc e))
    | .ok a2 =>
        ({ b with
            accounts := updateAcct b.accounts n a2,
            transactions := b.transactions ++ [⟨.withdraw, n, amount, none⟩] },
         none)

/-- `Bank.transfer`: checks both accounts exist, the coarse pre-check
`from.balance - amount < 0`, then performs the source `withdraw` (its own
policy), the destination `deposit`, and appends one transfer record.  The
intermediate state after a successful withdraw is kept so that a failure
of the later deposit would leave the debit in place, as it would in the
source. -/
def Bank.transfer (b : Bank) (nf nt : String) (amount : ℚ) :
    Bank × Option BankErr :=
  match findAcct b.accounts nf with
  | none => (b, some .notFound)
  | some af =>
    match findAcct b.accounts nt with
    | none => (b, some .notFound)
    | some _ =>
      if af.balance - amount < 0 then (b, some .insufficientFundsPrecheck)
      else
        match Account.withdraw af amount with
        | .error e => (b, some (.acc e))
        | .ok af2 =>
          let b2 : Bank := { b with accounts := updateAcct b.accounts nf af2 }
          match findAcct b2.accounts nt with
          | none => (b2, some .notFound)
          | some a3 =>
            match BankAccount.deposit a3 amount with
            | .error e => (b2, some (.acc e))
            | .ok a4 =>
                ({ b2 with
                    accounts := updateAcct b2.accounts nt a4,
                    transactions :=
                      b2.transactions ++ [⟨.transfer, nf, amount, some nt⟩] },
                 none)

/-- Invoking `add_interest` directly on the savings-account object stored
under key `n` (the account objects in the mapping are aliased, so the
mutation is visible through the bank). -/
def Bank.acct_add_interest (b : Bank) (n : String) : Bank × Option BankErr :=
  match findAcct b.accounts n with
  | none => (b, some .notFound)
  | some a =>
    match SavingsAccount.add_interest a with
    | .error e => (b, some (.acc e))
    | .ok a2 => ({ b with accounts := updateAcct b.accounts n a2 }, none)

/-- One step of the ledger: a bank-level operation or a direct
`add_interest` call on a stored account. -/
inductive BankOp
  | deposit (n : String) (amount : ℚ)
  | withdraw (n : String) (amount : ℚ)
  | transfer (nf nt : String) (amount : ℚ)
  | add_account (a : Account)
  | remove_account (n : String)
  | add_interest (n : String)

/-- The state after one operation; a failing operation leaves the state it
produced (which the atomicity theorems show is the unchanged state). -/
def Bank.applyOp (b : Bank) : BankOp → Bank
  | .deposit n x => (b.deposit n x).1
  | .withdraw n x => (b.withdraw n x).1
  | .transfer nf nt x => (b.transfer nf nt x).1
  | .add_account a => (b.add_account a).1
  | .remove_account n => (b.remove_account n).1
  | .add_interest n => (b.acct_add_interest n).1

/-- The state after a finite sequence of operations. -/
def Bank.applyOps (b : Bank) (ops : List BankOp) : Bank :=
  ops.foldl Bank.applyOp b

/-- Every account balance in the bank is non-negative. -/
def allNonneg (b : Bank) : Prop := ∀ p ∈ b.accounts, 0 ≤ p.2.balance

/-- Every key of the accounts mapping equals the stored account's own
account number. -/
def goodKeys (b : Bank) : Prop := ∀ p ∈ b.accounts, p.2.account_number = p.1

/-- Operations whose payload respects the balance invariant: only
`add_account` carries an account, which must have a non-negative
balance (as any account built by a constructor does). -/
def opNonneg : BankOp → Prop
  | .add_account a => 0 ≤ a.balance
  | _ => True

namespace homework

/-- The `OperationResult` dataclass of `homework.py`. -/
structure OperationResult where
  result : Bool
  error_message : String
  deriving DecidableEq

/-- The `BankAccount` of `homework.py` (no validation anywhere). -/
structure BankAccount where
  account_number : String
  account_holder : String
  balance : ℚ
  account_type : AccountType
  deriving DecidableEq

/-- `homework.BankAccount.deposit`: unconditionally adds and reports
success. -/
def BankAccount.deposit (a : BankAccount) (value : ℚ) :
    BankAccount × OperationResult :=
  ({ a with balance := a.balance + value }, ⟨true, ""⟩)

/-- `homework.BankAccount.withdraw`: unconditionally subtracts and reports
success. -/
def BankAccount.withdraw (a : BankAccount) (value : ℚ) :
    BankAccount × OperationResult :=
  ({ a with balance := a.balance - value }, ⟨true, ""⟩)

end homework

lemma findAcct_mem {l : List (String × Account)} {n : String} {a : Account}
    (h : findAcct l n = some a) : (n, a) ∈ l := by
  induction l with
  | nil => simp [findAcct] at h
  | cons p rest ih =>
      obtain ⟨p1, p2⟩ := p
      by_cases hp : p1 = n
      · subst hp
        simp [findAcct] at h
        subst h
        exact List.mem_cons_self _ _
      · simp only [findAcct, hp, if_false, if_neg] at h
        exact .tail _ (ih h)

lemma findAcct_update_self (l : List (String × Account)) (n : String)
    (a : Account) :
    findAcct (updateAcct l n a) n = (findAcct l n).map fun _ => a := by
  induction l with
  | nil => simp [findAcct, updateAcct]
  | cons p rest ih =>
      by_cases hp : p.1 = n
      · simp [updateAcct, findAcct, hp, ih]
      · simp [updateAcct, findAcct, hp, ih]

lemma findAcct_update_ne (l : List (String × Account)) {n m : String}
    (a : Account) (h : m ≠ n) :
    findAcct (updateAcct l n a) m = findAcct l m := by
  induction l with
  | nil => simp [updateAcct]
  | cons p rest ih =>
      by_cases hp : p.1 = n
      · have hm : ¬ p.1 = m := fun hc => h (by rw [← hc, hp])
        simp [updateAcct, findAcct, hp, hm, Ne.symm h, ih]
      · simp [updateAcct, findAcct, hp, ih]

lemma updateAcct_mem (l : List (String × Account)) (n : String) (a : Account) :
    ∀ q ∈ updateAcct l n a, q ∈ l ∨ (q.1 = n ∧ q.2 = a) := by
  induction l with
  | nil => simp [updateAcct]
  | cons p rest ih =>
      intro q hq
      rw [updateAcct, List.mem_cons] at hq
      rcases hq with h | h
      · by_cases hp : p.1 = n
        · rw [if_pos hp] at h
          right
          rw [h, hp]
          exact ⟨rfl, rfl⟩
        · rw [if_neg hp] at h
          exact .inl (h ▸ List.mem_cons_self p rest)
      · rcases ih q h with h1 | h2
        · exact .inl (List.mem_cons_of_mem p h1)
        · exact .inr h2

lemma base_withdraw_ok {a : Account} {x : ℚ} {a' : Account}
    (h : BankAccount.withdraw a x = .ok a') :
    0 < x ∧ x ≤ a.balance ∧ a' = { a with balance := a.balance - x } := by
  unfold BankAccount.withdraw at h
  by_cases h1 : x ≤ 0
  · simp [h1] at h
  · by_cases h2 : a.balance < x
    · simp [h1, h2] at h
    · simp [h1, h2] at h
      exact ⟨not_le.mp h1, not_lt.mp h2, h.symm⟩

lemma acct_withdraw_ok {a : Account} {x : ℚ} {a' : Account}
    (h : Account.withdraw a x = .ok a') :
    0 < x ∧ x ≤ a.balance ∧ a' = { a with balance := a.balance - x } := by
  unfold Account.withdraw at h
  cases hv : a.variant with
  | base =>
      rw [hv] at h
      obtain ⟨h1, h2, h3⟩ := base_withdraw_ok h
      refine ⟨h1, h2, ?_⟩
      rw [h3, hv]
  | savings r m =>
      rw [hv] at h
      by_cases hm : a.balance - x < m
      · simp [hm] at h
      · simp only [hm, if_false, if_neg] at h
        obtain ⟨h1, h2, h3⟩ := base_withdraw_ok h
        refine ⟨h1, h2, ?_⟩
        rw [h3, hv]

lemma Account.withdraw_savings_floor {a : Account} {x : ℚ} {a' : Account}
    {r m : ℚ} (hv : a.variant = .savings r m)
    (h : Account.withdraw a x = .ok a') : m ≤ a.balance - x := by
  unfold Account.withdraw at h
  rw [hv] at h
  by_cases hm : a.balance - x < m
  · simp [hm] at h
  · exact not_lt.mp hm

lemma BankAccount.deposit_ok {a : Account} {x : ℚ} {a' : Account}
    (h : BankAccount.deposit a x = .ok a') :
    0 < x ∧ a' = { a with balance := a.balance + x } := by
  unfold BankAccount.deposit at h
  by_cases h1 : x ≤ 0
  · simp [h1] at h
  · simp [h1] at h
    exact ⟨not_le.mp h1, h.symm⟩

lemma BankAccount.deposit_pos {a : Account} {x : ℚ} (h : 0 < x) :
    BankAccount.deposit a x = .ok { a with balance := a.balance + x } := by
  unfold BankAccount.deposit
  rw [if_neg (not_le.mpr h)]

lemma SavingsAccount.add_interest_ok {a a' : Account}
    (h : SavingsAccount.add_interest a = .ok a') : a.balance ≤ a'.balance := by
  unfold SavingsAccount.add_interest at h
  cases hv : a.variant with
  | base =>
      rw [hv] at h
      cases h
      exact le_refl _
  | savings r m =>
      rw [hv] at h
      obtain ⟨hpos, ha'⟩ := BankAccount.deposit_ok h
      rw [ha']
      simp only
      linarith

lemma SavingsAccount.add_interest_number {a a' : Account}
    (h : SavingsAccount.add_interest a = .ok a') :
    a'.account_number = a.account_number := by
  unfold SavingsAccount.add_interest at h
  cases hv : a.variant with
  | base =>
      rw [hv] at h
      cases h
      rfl
  | savings r m =>
      rw [hv] at h
      obtain ⟨hpos, ha'⟩ := BankAccount.deposit_ok h
      rw [ha']

/-- C4 (amended): for the validated `BankAccount` of `bank_account.py`,
`withdraw x` fails with `InvalidArgument` iff `x ≤ 0`, fails with
`InsufficientFunds` iff `0 < x` and `x` exceeds the balance, and otherwise
succeeds, with the balance becoming exactly `balance - x` and every other
field unchanged. -/
theorem withdraw_trichotomy (a : Account) (x : ℚ) :
    (BankAccount.withdraw a x = .error .invalidArgument ↔ x ≤ 0) ∧
    (BankAccount.withdraw a x = .error .insufficientFunds ↔
      0 < x ∧ a.balance < x) ∧
    (0 < x → x ≤ a.balance →
      BankAccount.withdraw a x = .ok { a with balance := a.balance - x }) := by
  refine ⟨?_, ?_, ?_⟩
  · by_cases h1 : x ≤ 0
    · simp [BankAccount.withdraw, h1]
    · by_cases h2 : a.balance < x <;> simp [BankAccount.withdraw, h1, h2]
  · by_cases h1 : x ≤ 0
    · simp [BankAccount.withdraw, h1, not_lt.mpr h1]
    · by_cases h2 : a.balance < x <;>
        simp [BankAccount.withdraw, h1, h2, not_le.mp h1]
  · intro hx hle
    rw [BankAccount.withdraw, if_neg (not_le.mpr hx), if_neg (not_lt.mpr hle)]

/-- Witness for C4: withdrawing 4 from a balance of 10 leaves 6. -/
theorem withdraw_trichotomy_demo :
    BankAccount.withdraw ⟨"1", "h", .checking, 10, .base⟩ 4 =
      .ok ⟨"1", "h", .checking, 6, .base⟩ := by
  have h := (withdraw_trichotomy ⟨"1", "h", .checking, 10, .base⟩ 4).2.2
    (by norm_num) (by norm_num)
  norm_num at h
  exact h

/-- C4 counterexample: the other base account of the repository,
`homework.BankAccount`, performs no validation at all: withdrawing the
non-positive amount -5 from a balance of 10 reports success and leaves a
balance of 15, instead of failing with `InvalidArgument`. -/
theorem homework_withdraw_no_validation :
    homework.BankAccount.withdraw ⟨"1", "h", 10, .checking⟩ (-5) =
      (⟨"1", "h", 15, .checking⟩, ⟨true, ""⟩) := by
  norm_num [homework.BankAccount.withdraw]

/-- C3 (amended): a savings withdraw succeeds only if the post-withdrawal
balance stays at or above the floor `m`; the amount `b - m + 1` always
fails with `MinimumBalanceViolation`; and the boundary amount `b - m`
succeeds provided `m < b` and `0 ≤ m` (when `b = m` the boundary amount is
0 and is rejected as `InvalidArgument`; when `m < 0` it exceeds the
balance). -/
theorem savings_withdraw_floor (a : Account) (r m x : ℚ)
    (hv : a.variant = .savings r m) :
    (∀ a', Account.withdraw a x = .ok a' →
        m ≤ a.balance - x ∧ a'.balance = a.balance - x) ∧
    (m < a.balance → 0 ≤ m →
        Account.withdraw a (a.balance - m) =
          .ok { a with balance := a.balance - (a.balance - m) }) ∧
    Account.withdraw a (a.balance - m + 1) = .error .minBalanceViolation := by
  refine ⟨?_, ?_, ?_⟩
  · intro a' h
    obtain ⟨hx, hle, ha'⟩ := acct_withdraw_ok h
    exact ⟨Account.withdraw_savings_floor hv h, by rw [ha']⟩
  · intro hmb hm
    rw [Account.withdraw, hv]
    simp only
    rw [if_neg (by linarith), BankAccount.withdraw,
      if_neg (by simp; linarith), if_neg (by simp; linarith), hv]
  · rw [Account.withdraw, hv]
    simp only
    rw [if_pos (by linarith)]

/-- Witness for C3: savings balance 10, floor 3; the boundary amount 7
succeeds leaving exactly the floor, and 8 fails with
`MinimumBalanceViolation`. -/
theorem savings_withdraw_floor_demo :
    Account.withdraw ⟨"s", "h", .savings, 10, .savings 0 3⟩ 7 =
      .ok ⟨"s", "h", .savings, 3, .savings 0 3⟩ ∧
    Account.withdraw ⟨"s", "h", .savings, 10, .savings 0 3⟩ 8 =
      .error .minBalanceViolation := by
  have h := savings_withdraw_floor ⟨"s", "h", .savings, 10, .savings 0 3⟩
    0 3 7 rfl
  have h1 := h.2.1 (by norm_num) (by norm_num)
  have h2 := h.2.2
  norm_num at h1 h2
  exact ⟨h1, h2⟩

/-- C3 counterexample: on the savings account of the spec's own scenario
(balance 10, floor 10) the boundary amount `b - m = 0` does not succeed:
the minimum-balance check passes but the base withdraw rejects the
non-positive amount with `InvalidArgument`. -/
theorem savings_withdraw_boundary_counterexample :
    Account.withdraw ⟨"1", "h", .savings, 10, .savings 10 10⟩ (10 - 10) =
      .error .invalidArgument := by
  norm_num [Account.withdraw, BankAccount.withdraw]

/-- C7 (amended): a savings withdraw of a non-positive amount `x` always
fails, but the error depends on the order of the checks in the source:
the minimum-balance check runs first, so the failure is `InvalidArgument`
only when `m ≤ b - x`, and `MinimumBalanceViolation` when `b - x < m`
(e.g. when the balance is already far enough below the floor). -/
theorem savings_withdraw_nonpositive (a : Account) (r m x : ℚ)
    (hv : a.variant = .savings r m) (hx : x ≤ 0) :
    (m ≤ a.balance - x → Account.withdraw a x = .error .invalidArgument) ∧
    (a.balance - x < m → Account.withdraw a x = .error .minBalanceViolation) := by
  rw [Account.withdraw, hv]
  simp only
  constructor
  · intro hge
    rw [if_neg (not_lt.mpr hge), BankAccount.withdraw, if_pos hx]
  · intro hlt
    rw [if_pos hlt]

/-- Witness for C7: savings balance 5, floor 3, amount 0: rejected with
`InvalidArgument`. -/
theorem savings_withdraw_nonpositive_demo :
    Account.withdraw ⟨"s", "h", .savings, 5, .savings 0 3⟩ 0 =
      .error .invalidArgument := by
  have h := (savings_withdraw_nonpositive ⟨"s", "h", .savings, 5, .savings 0 3⟩
    0 3 0 rfl (by norm_num)).1 (by norm_num)
  exact h

/-- C7 counterexample: savings balance 0 with floor 10 (the constructor
accepts an initial balance below the floor): withdrawing 0 fails with
`MinimumBalanceViolation`, not with `InvalidArgument` as the claim
requires. -/
theorem savings_withdraw_nonpositive_counterexample :
    Account.withdraw ⟨"1", "h", .savings, 0, .savings 0 10⟩ 0 =
      .error .minBalanceViolation ∧
    AccErr.minBalanceViolation ≠ AccErr.invalidArgument := by
  constructor
  · norm_num [Account.withdraw]
  · decide

/-- C2 (code bug evidence): a savings account with balance 10 and interest
rate 0 is constructible, but `add_interest` on it does not succeed as a
no-op: the computed interest 0 is passed to the inherited guarded
`deposit`, which rejects it with `InvalidArgument`.  A positive-rate case
matching the spec scenario (balance 10, rate 10 giving 11) is included to
show the interest amount `balance * rate / 100` is otherwise as
specified. -/
theorem add_interest_zero_rate_fails :
    mkSavingsAccount "1" "h" 10 0 0 =
      .ok ⟨"1", "h", .savings, 10, .savings 0 0⟩ ∧
    SavingsAccount.add_interest ⟨"1", "h", .savings, 10, .savings 0 0⟩ =
      .error .invalidArgument ∧
    SavingsAccount.add_interest ⟨"1", "h", .savings, 10, .savings 10 10⟩ =
      .ok ⟨"1", "h", .savings, 11, .savings 10 10⟩ := by
  refine ⟨?_, ?_, ?_⟩
  · simp +decide [mkSavingsAccount, mkBankAccount, blankStr, Except.map]
  · norm_num [SavingsAccount.add_interest, BankAccount.deposit]
  · norm_num [SavingsAccount.add_interest, BankAccount.deposit]

/-- C10: the `SavingsAccount` constructor enforces neither the floor nor
any rate validation: an initial balance strictly below the floor and a
negative rate are accepted, as is a negative floor; the floor only bites
on a later withdraw. -/
theorem savings_ctor_unchecked :
    mkSavingsAccount "1" "h" 0 (-5) 10 =
      .ok ⟨"1", "h", .savings, 0, .savings (-5) 10⟩ ∧
    mkSavingsAccount "2" "g" 5 3 (-2) =
      .ok ⟨"2", "g", .savings, 5, .savings 3 (-2)⟩ ∧
    Account.withdraw ⟨"1", "h", .savings, 0, .savings (-5) 10⟩ 1 =
      .error .minBalanceViolation := by
  refine ⟨?_, ?_, ?_⟩
  · simp +decide [mkSavingsAccount, mkBankAccount, blankStr, Except.map]
  · simp +decide [mkSavingsAccount, mkBankAccount, blankStr, Except.map]
  · norm_num [Account.withdraw]

/-- C9 (code bug evidence): the `timestamp` line of the `Transaction`
dataclass has no type annotation, so it is a class attribute evaluated
once, not a per-instance field: two transactions created at any two
distinct moments `now1` and `now2` read back the identical shared
class-load time. -/
theorem transaction_timestamp_shared (class_load_time : ℕ)
    (ty1 ty2 : TransactionType) (n1 n2 : String) (x1 x2 : ℚ)
    (d1 d2 : Option String) (now1 now2 : ℕ) :
    (mkTransaction ty1 n1 x1 d1 now1).timestamp class_load_time =
      (mkTransaction ty2 n2 x2 d2 now2).timestamp class_load_time := rfl

lemma updateAcct_goodKeys {l : List (String × Account)} {n : String}
    {a2 : Account} (h : ∀ p ∈ l, p.2.account_number = p.1)
    (ha : a2.account_number = n) :
    ∀ p ∈ updateAcct l n a2, p.2.account_number = p.1 := by
  intro q hq
  rcases updateAcct_mem l n a2 q hq with h1 | ⟨h1, h2⟩
  · exact h q h1
  · rw [h2, ha, h1]

lemma updateAcct_nonneg {l : List (String × Account)} {n : String}
    {a2 : Account} (h : ∀ p ∈ l, 0 ≤ p.2.balance) (ha : 0 ≤ a2.balance) :
    ∀ p ∈ updateAcct l n a2, 0 ≤ p.2.balance := by
  intro q hq
  rcases updateAcct_mem l n a2 q hq with h1 | ⟨h1, h2⟩
  · exact h q h1
  · rw [h2]
    exact ha

lemma applyOp_goodKeys (b : Bank) (op : BankOp) (h : goodKeys b) :
    goodKeys (b.applyOp op) := by
  cases op with
  | deposit n x =>
      show goodKeys (b.deposit n x).1
      unfold Bank.deposit
      split
      · exact h
      · rename_i a hf
        split
        · exact h
        · rename_i a2 hd
          obtain ⟨hx, ha2⟩ := BankAccount.deposit_ok hd
          exact updateAcct_goodKeys h (by rw [ha2]; exact h _ (findAcct_mem hf))
  | withdraw n x =>
      show goodKeys (b.withdraw n x).1
      unfold Bank.withdraw
      split
      · exact h
      · rename_i a hf
        split
        · exact h
        · rename_i a2 hd
          obtain ⟨hx, hle, ha2⟩ := acct_withdraw_ok hd
          exact updateAcct_goodKeys h (by rw [ha2]; exact h _ (findAcct_mem hf))
  | transfer nf nt x =>
      show goodKeys (b.transfer nf nt x).1
      unfold Bank.transfer
      split
      · exact h
      · rename_i af hf
        split
        · exact h
        · rename_i a0 ht
          split
          · exact h
          · dsimp only
            split
            · exact h
            · rename_i af2 hw
              obtain ⟨hx, hle, haf2⟩ := acct_withdraw_ok hw
              have h2 : ∀ p ∈ updateAcct b.accounts nf af2,
                  p.2.account_number = p.1 :=
                updateAcct_goodKeys h
                  (by rw [haf2]; exact h _ (findAcct_mem hf))
              split
              · exact h2
              · rename_i a3 ht2
                split
                · exact h2
                · rename_i a4 hd
                  obtain ⟨hx2, ha4⟩ := BankAccount.deposit_ok hd
                  exact updateAcct_goodKeys h2
                    (by rw [ha4]; exact h2 _ (findAcct_mem ht2))
  | add_account a =>
      show goodKeys (b.add_account a).1
      unfold Bank.add_account
      split
      · exact h
      · intro q hq
        rcases List.mem_append.mp hq with h1 | h1
        · exact h q h1
        · rw [List.mem_singleton.mp h1]
  | remove_account n =>
      show goodKeys (b.remove_account n).1
      unfold Bank.remove_account
      split
      · intro q hq
        exact h q (List.mem_of_mem_filter hq)
      · exact h
  | add_interest n =>
      show goodKeys (b.acct_add_interest n).1
      unfold Bank.acct_add_interest
      split
      · exact h
      · rename_i a hf
        split
        · exact h
        · rename_i a2 hd
          exact updateAcct_goodKeys h
            (by rw [SavingsAccount.add_interest_number hd]
                exact h _ (findAcct_mem hf))

lemma applyOp_nonneg (b : Bank) (op : BankOp) (h : allNonneg b)
    (hop : opNonneg op) : allNonneg (b.applyOp op) := by
  cases op with
  | deposit n x =>
      show allNonneg (b.deposit n x).1
      unfold Bank.deposit
      split
      · exact h
      · rename_i a hf
        split
        · exact h
        · rename_i a2 hd
          obtain ⟨hx, ha2⟩ := BankAccount.deposit_ok hd
          have h0 : 0 ≤ a.balance := h _ (findAcct_mem hf)
          refine updateAcct_nonneg h ?_
          rw [ha2]
          simp only
          linarith
  | withdraw n x =>
      show allNonneg (b.withdraw n x).1
      unfold Bank.withdraw
      split
      · exact h
      · rename_i a hf
        split
        · exact h
        · rename_i a2 hd
          obtain ⟨hx, hle, ha2⟩ := acct_withdraw_ok hd
          refine updateAcct_nonneg h ?_
          rw [ha2]
          simp only
          linarith
  | transfer nf nt x =>
      show allNonneg (b.transfer nf nt x).1
      unfold Bank.transfer
      split
      · exact h
      · rename_i af hf
        split
        · exact h
        · rename_i a0 ht
          split
          · exact h
          · dsimp only
            split
            · exact h
            · rename_i af2 hw
              obtain ⟨hx, hle, haf2⟩ := acct_withdraw_ok hw
              have h2 : ∀ p ∈ updateAcct b.accounts nf af2, 0 ≤ p.2.balance := by
                refine updateAcct_nonneg h ?_
                rw [haf2]
                simp only
                linarith
              split
              · exact h2
              · rename_i a3 ht2
                split
                · exact h2
                · rename_i a4 hd
                  obtain ⟨hx2, ha4⟩ := BankAccount.deposit_ok hd
                  have h3 : 0 ≤ a3.balance := h2 _ (findAcct_mem ht2)
                  refine updateAcct_nonneg h2 ?_
                  rw [ha4]
                  simp only
                  linarith
  | add_account a =>
      show allNonneg (b.add_account a).1
      unfold Bank.add_account
      split
      · exact h
      · intro q hq
        rcases List.mem_append.mp hq with h1 | h1
        · exact h q h1
        · rw [List.mem_singleton.mp h1]
          exact hop
  | remove_account n =>
      show allNonneg (b.remove_account n).1
      unfold Bank.remove_account
      split
      · intro q hq
        exact h q (List.mem_of_mem_filter hq)
      · exact h
  | add_interest n =>
      show allNonneg (b.acct_add_interest n).1
      unfold Bank.acct_add_interest
      split
      · exact h
      · rename_i a hf
        split
        · exact h
        · rename_i a2 hd
          have h0 : 0 ≤ a.balance := h _ (findAcct_mem hf)
          exact updateAcct_nonneg h
            (le_trans h0 (SavingsAccount.add_interest_ok hd))

/-- C6: `Bank.deposit` fails with `NotFound` exactly when the account is
missing; when the account exists it delegates to the account's `deposit`,
appending exactly one deposit record on success; on any failure the
transaction log is completely unchanged. -/
theorem bank_deposit_log (b : Bank) (n : String) (x : ℚ) :
    ((b.deposit n x).2 = some .notFound ↔ findAcct b.accounts n = none) ∧
    (∀ a, findAcct b.accounts n = some a →
      (∀ e, BankAccount.deposit a x = .error e →
          b.deposit n x = (b, some (.acc e))) ∧
      (∀ a2, BankAccount.deposit a x = .ok a2 →
          (b.deposit n x).2 = none ∧
          (b.deposit n x).1.transactions =
            b.transactions ++ [⟨.deposit, n, x, none⟩])) ∧
    ((b.deposit n x).2.isSome → (b.deposit n x).1.transactions =
        b.transactions) := by
  cases hf : findAcct b.accounts n with
  | none => simp [Bank.deposit, hf]
  | some a =>
      cases hd : BankAccount.deposit a x with
      | error e => simp [Bank.deposit, hf, hd]
      | ok a2 => simp [Bank.deposit, hf, hd]

/-- The demonstration bank of the spec scenario: accounts "1" (balance
10) and "2" (balance 20), empty transaction log. -/
def demoBank : Bank :=
  ⟨"bank_1",
   [("1", ⟨"1", "deniz", .checking, 10, .base⟩),
    ("2", ⟨"2", "gelka", .checking, 20, .base⟩)],
   []⟩

/-- Witness for C6: depositing 10 into account "1" of the demo bank
succeeds and appends one deposit record. -/
theorem bank_deposit_log_demo :
    (demoBank.deposit "1" 10).2 = none ∧
    (demoBank.deposit "1" 10).1.transactions =
      demoBank.transactions ++ [⟨.deposit, "1", 10, none⟩] := by
  have h := ((bank_deposit_log demoBank "1" 10).2.1
      ⟨"1", "deniz", .checking, 10, .base⟩ (by norm_num [demoBank, findAcct])).2
      ⟨"1", "deniz", .checking, 20, .base⟩
      (by norm_num [BankAccount.deposit])
  exact h

/-- C1: a transfer between two distinct existing accounts either succeeds,
conserving the sum of the two balances (source debited by `x`, destination
credited by `x`) and appending exactly one transfer record referencing
both account numbers, or fails leaving the whole bank (balances and log)
unchanged. -/
theorem transfer_atomic (b : Bank) (nf nt : String) (x : ℚ)
    (af aT : Account) (hne : nf ≠ nt)
    (hf : findAcct b.accounts nf = some af)
    (ht : findAcct b.accounts nt = some aT) :
    ((b.transfer nf nt x).2 = none →
      findAcct (b.transfer nf nt x).1.accounts nf =
          some { af with balance := af.balance - x } ∧
      findAcct (b.transfer nf nt x).1.accounts nt =
          some { aT with balance := aT.balance + x } ∧
      (af.balance - x) + (aT.balance + x) = af.balance + aT.balance ∧
      (b.transfer nf nt x).1.transactions =
          b.transactions ++ [⟨.transfer, nf, x, some nt⟩]) ∧
    (∀ e, (b.transfer nf nt x).2 = some e → (b.transfer nf nt x).1 = b) := by
  by_cases hpre : af.balance - x < 0
  · have hres : b.transfer nf nt x = (b, some .insufficientFundsPrecheck) := by
      simp [Bank.transfer, hf, ht, hpre]
    rw [hres]
    simp
  · cases hw : Account.withdraw af x with
    | error e =>
        have hres : b.transfer nf nt x = (b, some (.acc e)) := by
          simp [Bank.transfer, hf, ht, hpre, hw]
        rw [hres]
        simp
    | ok af2 =>
        obtain ⟨hxpos, hxle, haf2⟩ := acct_withdraw_ok hw
        have hfind2 : findAcct (updateAcct b.accounts nf af2) nt = some aT := by
          rw [findAcct_update_ne _ _ (Ne.symm hne), ht]
        have hdep : BankAccount.deposit aT x =
            .ok { aT with balance := aT.balance + x } :=
          BankAccount.deposit_pos hxpos
        have hres : b.transfer nf nt x =
            ({ b with
                accounts := updateAcct (updateAcct b.accounts nf af2) nt
                  { aT with balance := aT.balance + x },
                transactions :=
                  b.transactions ++ [⟨.transfer, nf, x, some nt⟩] }, none) := by
          simp [Bank.transfer, hf, ht, hpre, hw, hfind2, hdep]
        rw [hres]
        constructor
        · intro _
          refine ⟨?_, ?_, by ring, rfl⟩
          · dsimp only
            rw [findAcct_update_ne _ _ hne, findAcct_update_self, hf]
            simp [haf2]
          · dsimp only
            rw [findAcct_update_self, hfind2]
            simp
        · intro e he
          simp at he

/-- Witness for C1: the spec scenario, transferring 3 from "1" (balance
10) to "2" (balance 20) in the demo bank: balances become 7 and 23 and one
transfer record referencing both accounts is appended. -/
theorem transfer_atomic_demo :
    findAcct (demoBank.transfer "1" "2" 3).1.accounts "1" =
      some ⟨"1", "deniz", .checking, 10 - 3, .base⟩ ∧
    findAcct (demoBank.transfer "1" "2" 3).1.accounts "2" =
      some ⟨"2", "gelka", .checking, 20 + 3, .base⟩ ∧
    (demoBank.transfer "1" "2" 3).1.transactions =
      demoBank.transactions ++ [⟨.transfer, "1", 3, some "2"⟩] := by
  have h := (transfer_atomic demoBank "1" "2" 3
      ⟨"1", "deniz", .checking, 10, .base⟩
      ⟨"2", "gelka", .checking, 20, .base⟩
      (by decide) (by simp +decide [demoBank, findAcct])
      (by simp +decide [demoBank, findAcct])).1
      (by simp +decide [demoBank, Bank.transfer, findAcct, updateAcct,
        Account.withdraw, BankAccount.withdraw, BankAccount.deposit])
  exact ⟨h.1, h.2.1, h.2.2.2⟩

/-- C8 (amended): a bank constructed without an initial accounts mapping
satisfies the key invariant (each key equals the stored account's own
number), and every operation preserves it. -/
theorem accounts_key_invariant :
    (∀ name, goodKeys (Bank.init name none)) ∧
    ∀ (b : Bank) (op : BankOp), goodKeys b → goodKeys (b.applyOp op) := by
  constructor
  · intro name q hq
    simp [Bank.init] at hq
  · exact fun b op h => applyOp_goodKeys b op h

/-- Witness for C8: adding an account to a freshly constructed bank keeps
the key invariant. -/
theorem accounts_key_invariant_demo :
    goodKeys ((Bank.init "b" none).applyOp
      (.add_account ⟨"1", "h", .checking, 5, .base⟩)) :=
  accounts_key_invariant.2 _ _ (by intro q hq; simp [Bank.init] at hq)

/-- C8 counterexample: the `Bank` constructor stores a caller-supplied
mapping unvalidated, so the state it produces can violate the key
invariant: a constructor-built account with number "1" stored under the
key "2". -/
theorem bank_init_mismatched_keys :
    mkBankAccount "1" "h" .checking 5 = .ok ⟨"1", "h", .checking, 5, .base⟩ ∧
    ¬ goodKeys (Bank.init "b"
        (some [("2", ⟨"1", "h", .checking, 5, .base⟩)])) := by
  constructor
  · simp +decide [mkBankAccount, blankStr]
  · intro hg
    have h2 := hg ("2", ⟨"1", "h", .checking, 5, .base⟩) (by simp [Bank.init])
    simp at h2

/-- C5 (amended): starting from a bank whose accounts all have
non-negative balances, any finite sequence of operations (with any added
accounts non-negative, as every constructor-built account is) keeps every
balance non-negative; failed operations leave the state unchanged. -/
theorem balances_nonneg (b : Bank) (ops : List BankOp) (h : allNonneg b)
    (hops : ∀ op ∈ ops, opNonneg op) : allNonneg (b.applyOps ops) := by
  induction ops generalizing b with
  | nil => exact h
  | cons op rest ih =>
      exact ih (b.applyOp op)
        (applyOp_nonneg b op h (hops op (List.mem_cons_self _ _)))
        (fun o ho => hops o (List.mem_cons_of_mem _ ho))

/-- Witness for C5: the demo bank stays non-negative through the source's
own demonstration sequence (deposit 10, withdraw 5, transfer 3). -/
theorem balances_nonneg_demo :
    allNonneg (demoBank.applyOps
      [.deposit "1" 10, .withdraw "1" 5, .transfer "1" "2" 3]) := by
  refine balances_nonneg demoBank _ ?_ ?_
  · intro p hp
    simp [demoBank] at hp
    rcases hp with h | h <;> rw [h] <;> norm_num
  · intro op hop
    simp [List.mem_cons] at hop
    rcases hop with rfl | rfl | rfl <;> trivial

/-- C5 counterexample: the unvalidated `homework.BankAccount.withdraw`
lets a balance go negative: withdrawing 5 from a balance of 0 reports
success and leaves -5. -/
theorem homework_negative_balance :
    (homework.BankAccount.withdraw ⟨"1", "h", 0, .checking⟩ 5).2.result =
      true ∧
    (homework.BankAccount.withdraw ⟨"1", "h", 0, .checking⟩ 5).1.balance <
      0 := by
  constructor
  · rfl
  · norm_num [homework.BankAccount.withdraw]
